import Mathlib

/-!
Verification of the topsecret-env configuration loader.

This file gives a shallow embedding of the loader's core pipeline:

* `validateValue` (src/lib/validateValue.js) — one schema rule against one value;
* `loadEnvFile` (src/lib/loadEnvFile.js) — line parsing, coercion, schema
  validation and the read-only accessor object, with the typed getters
  (`get`, `getString`, `getInteger`, `getFloat`, `getBoolean`, `getArray`,
  `getObject`) as functions over the produced object.

JavaScript runtime values are modelled by `JsValue`.  Numbers are modelled as
exact rationals (`JsNum`, an explicit numerator/denominator pair); IEEE-754
rounding of literals is not modelled — the loader only parses decimal
literals, compares them, and renders them, and on the magnitudes it handles
these agree with the double semantics.  Fallible operations (a JavaScript
`throw`) are modelled with `Except String`.

The helper modules `isJsonLike.js` and `coercePrimitive.js` are required by
`loadEnvFile.js` but their sources are not in the repository snapshot; they
are modelled from the spec (§4.1, §4.2) and marked as such.  The platform
builtins (`JSON.parse`, `String.prototype.trim`, `parseInt`, `parseFloat`,
`Number`, `Date`) are modelled to the extent the loader exercises them; the
simplifications (no Unicode whitespace in `trim`, no hex/`Infinity` numeric
strings, code points instead of UTF-16 units for string length, a simplified
date parser) are noted where they occur and none of them is observable on the
inputs treated below.
-/

namespace TopSecretEnv

/-- Exact rational model of a JavaScript number: `num / den` with `den`
positive in every value this development constructs. -/
structure JsNum where
  num : Int
  den : Nat
deriving DecidableEq

/-- Comparison `a < b` of two modelled numbers by cross multiplication
(denominators are positive). -/
def JsNum.lt (a b : JsNum) : Bool :=
  decide (a.num * (b.den : Int) < b.num * (a.den : Int))

/-- Model of `Number.isInteger`: the value is a whole number. -/
def JsNum.isWhole (a : JsNum) : Bool :=
  a.num % (a.den : Int) == 0

/-- Digit predicate for the regexp class `\d` (ASCII `0`–`9`). -/
def isDig (c : Char) : Bool :=
  48 ≤ c.toNat && c.toNat ≤ 57

/-- Numeric value of an ASCII digit. -/
def digVal (c : Char) : Nat := c.toNat - 48

/-- Accumulate a digit string into a natural number. -/
def digitsToNat (cs : List Char) : Nat :=
  cs.foldl (fun acc c => 10 * acc + digVal c) 0

/-- Whitespace as trimmed by the JavaScript string functions used here
(ASCII forms; the Unicode space characters do not occur in the treated
inputs). -/
def jsWS (c : Char) : Bool :=
  decide (c.toNat = 32) || decide (c.toNat = 9) || decide (c.toNat = 10) ||
    decide (c.toNat = 13) || decide (c.toNat = 11) || decide (c.toNat = 12)

/-- Trim whitespace from both ends of a character list, modelling
`String.prototype.trim`. -/
def trimChars (cs : List Char) : List Char :=
  ((cs.dropWhile jsWS).reverse.dropWhile jsWS).reverse

/-- Split a character list on a separator character, modelling
`String.prototype.split` with a one-character separator (the loader splits on
`"="` and on line breaks).  The result is always non-empty. -/
def splitOnChar (sep : Char) : List Char → List (List Char)
  | [] => [[]]
  | c :: rest =>
    match splitOnChar sep rest with
    | [] => [[]]
    | h :: t => if c == sep then [] :: h :: t else (c :: h) :: t

/-- Join character lists with `'='` between them, modelling
`rest.join("=")` in the line parser. -/
def joinWithEq : List (List Char) → List Char
  | [] => []
  | [x] => x
  | x :: rest => x ++ '=' :: joinWithEq rest

/-- Lower-case a string (ASCII, as exercised here), modelling
`String.prototype.toLowerCase`. -/
def lowerJs (s : String) : String :=
  String.mk (s.data.map Char.toLower)

/-- Upper-case a string (ASCII, as exercised here), modelling
`String.prototype.toUpperCase`. -/
def upperJs (s : String) : String :=
  String.mk (s.data.map Char.toUpper)

/-- Parse the exponent tail of a numeric string: either empty or
`e`/`E`, an optional sign, and at least one digit consuming the rest. -/
def parseExpTail (cs : List Char) : Option Int :=
  match cs with
  | [] => some 0
  | e :: rest =>
    if e == 'e' || e == 'E' then
      let (sgn, ds) : Int × List Char :=
        match rest with
        | '-' :: r => (-1, r)
        | '+' :: r => (1, r)
        | r => (1, r)
      if !ds.isEmpty && ds.all isDig then some (sgn * (digitsToNat ds : Int)) else none
    else none

/-- Scale a rational by a power of ten (for exponent parts). -/
def scalePow10 (n : Int) (d : Nat) (e : Int) : JsNum :=
  match e with
  | Int.ofNat k => ⟨n * (10 ^ k : Nat), d⟩
  | Int.negSucc k => ⟨n, d * 10 ^ (k + 1)⟩

/-- Parse an unsigned decimal numeric string (digits, optional fraction,
optional exponent), requiring the whole input to be consumed. -/
def parseUnsignedNum (cs : List Char) : Option JsNum :=
  let ip := cs.takeWhile isDig
  let rest := cs.dropWhile isDig
  match rest with
  | [] => if ip.isEmpty then none else some ⟨(digitsToNat ip : Int), 1⟩
  | '.' :: r2 =>
    let fp := r2.takeWhile isDig
    let r3 := r2.dropWhile isDig
    if ip.isEmpty && fp.isEmpty then none
    else
      (parseExpTail r3).map fun e =>
        scalePow10 ((digitsToNat ip * 10 ^ fp.length + digitsToNat fp : Nat) : Int)
          (10 ^ fp.length) e
  | _ =>
    if ip.isEmpty then none
    else (parseExpTail rest).map fun e => scalePow10 ((digitsToNat ip : Nat) : Int) 1 e

/-- Model of the `ToNumber` conversion on strings (as applied by `Number(x)`
and by relational comparison): trimmed empty string is `0`, otherwise a fully
matching signed decimal literal.  The hex/octal/binary and `Infinity` forms
of the full grammar do not arise in the treated inputs and are not
modelled. -/
def strToNumber (s : String) : Option JsNum :=
  let cs := trimChars s.data
  if cs.isEmpty then some ⟨0, 1⟩
  else if cs.head? == some '-' then (parseUnsignedNum cs.tail).map fun a => ⟨-a.num, a.den⟩
  else if cs.head? == some '+' then parseUnsignedNum cs.tail
  else parseUnsignedNum cs

/-- Model of `parseInt(s, 10)`: skip leading whitespace, optional sign, then
the longest leading run of decimal digits; `none` models `NaN`. -/
def parseIntJs (s : String) : Option Int :=
  let cs := s.data.dropWhile jsWS
  let (sgn, body) : Int × List Char :=
    match cs with
    | '-' :: r => (-1, r)
    | '+' :: r => (1, r)
    | r => (1, r)
  let ds := body.takeWhile isDig
  if ds.isEmpty then none else some (sgn * (digitsToNat ds : Int))

/-- Parse the longest leading decimal literal for `parseFloat`: digits with
optional fraction, then an exponent only when it is well formed. -/
def parseFloatBody (body : List Char) : Option JsNum :=
  let ip := body.takeWhile isDig
  let rest := body.dropWhile isDig
  let (ipv, fp, rest2) : Nat × List Char × List Char :=
    match rest with
    | '.' :: r2 => (digitsToNat ip, r2.takeWhile isDig, r2.dropWhile isDig)
    | r => (digitsToNat ip, [], r)
  if ip.isEmpty && fp.isEmpty then none
  else
    let mantN : Int := (ipv * 10 ^ fp.length + digitsToNat fp : Nat)
    let mantD : Nat := 10 ^ fp.length
    match rest2 with
    | e :: r3 =>
      if e == 'e' || e == 'E' then
        let (sgn, ds0) : Int × List Char :=
          match r3 with
          | '-' :: r4 => (-1, r4)
          | '+' :: r4 => (1, r4)
          | r4 => (1, r4)
        let ds := ds0.takeWhile isDig
        if ds.isEmpty then some ⟨mantN, mantD⟩
        else some (scalePow10 mantN mantD (sgn * (digitsToNat ds : Int)))
      else some ⟨mantN, mantD⟩
    | [] => some ⟨mantN, mantD⟩

/-- Model of `parseFloat(s)`: skip leading whitespace, optional sign, longest
leading decimal literal; `none` models `NaN`.  The `Infinity` form is not
modelled (it does not arise in the treated inputs). -/
def parseFloatJs (s : String) : Option JsNum :=
  let cs := s.data.dropWhile jsWS
  match cs with
  | '-' :: rest => (parseFloatBody rest).map fun a => ⟨-a.num, a.den⟩
  | '+' :: rest => parseFloatBody rest
  | _ => parseFloatBody cs

/-- Left-pad a digit string with zeros to the given length. -/
def padZeros (s : List Char) (k : Nat) : List Char :=
  List.replicate (k - s.length) '0' ++ s

/-- Find the least `k` below the fuel bound with `10 ^ k` divisible by `d`. -/
def findPow10 (d : Nat) : Nat → Nat → Option Nat
  | _, 0 => none
  | k, fuel + 1 => if 10 ^ k % d = 0 then some k else findPow10 d (k + 1) fuel

/-- Render a JavaScript number as `Number.prototype.toString` does for the
values this loader produces: integers in decimal, finite decimal fractions
with a point and no trailing zeros.  (The scientific forms for extreme
magnitudes are not modelled; they do not arise here.) -/
def JsNum.render (a : JsNum) : String :=
  let g := Nat.gcd a.num.natAbs a.den
  let n : Int := a.num / (g : Int)
  let d : Nat := a.den / g
  if d = 1 then n.repr
  else
    match findPow10 d 0 40 with
    | some k =>
      let total := n.natAbs * (10 ^ k / d)
      let ip := total / 10 ^ k
      let fr := total % 10 ^ k
      (if n < 0 then "-" else "") ++ ip.repr ++ "." ++ String.mk (padZeros (Nat.repr fr).data k)
    | none => n.repr ++ "/" ++ d.repr

/-- JavaScript runtime values as they occur in this loader. -/
inductive JsValue where
  | undefined
  | null
  | bool (b : Bool)
  | num (n : JsNum)
  | str (s : String)
  | arr (elems : List JsValue)
  | obj (fields : List (String × JsValue))

/-- Join strings with commas, as `Array.prototype.join` does by default. -/
def commaJoin : List String → String
  | [] => ""
  | [s] => s
  | s :: rest => s ++ "," ++ commaJoin rest

mutual

/-- Structural size of a value, used as recursion fuel for the array case of
the string conversion.  It strictly dominates array nesting depth. -/
def jsSize : JsValue → Nat
  | .arr es => 1 + jsSizeList es
  | _ => 1

/-- Structural size of a list of values. -/
def jsSizeList : List JsValue → Nat
  | [] => 0
  | e :: rest => 1 + jsSize e + jsSizeList rest

end

/-- Model of the `ToString` conversion, with explicit fuel to recurse through
array elements; `jsToString` instantiates the fuel with `jsSize`, which
always dominates the nesting depth, so the truncation branch is never
taken.  Array elements that are `undefined` or `null` join as empty
strings, as `Array.prototype.join` specifies. -/
def jsToStringF (fuel : Nat) : JsValue → String
  | .undefined => "undefined"
  | .null => "null"
  | .bool b => cond b "true" "false"
  | .num n => n.render
  | .str s => s
  | .obj _ => "[object Object]"
  | .arr es =>
    match fuel with
    | 0 => ""
    | n + 1 => commaJoin (es.map fun e =>
        match e with
        | .undefined => ""
        | .null => ""
        | v => jsToStringF n v)

/-- Model of the `ToString` conversion on a value. -/
def jsToString (v : JsValue) : String :=
  jsToStringF (jsSize v) v

/-- Model of the `ToNumber` conversion on a value (`none` models `NaN`):
booleans are `0`/`1`, `null` is `0`, strings through the numeric-string
grammar, arrays and plain objects through their string form. -/
def jsToNumber : JsValue → Option JsNum
  | .undefined => none
  | .null => some ⟨0, 1⟩
  | .bool b => some ⟨cond b 1 0, 1⟩
  | .num n => some n
  | .str s => strToNumber s
  | .arr es => strToNumber (jsToString (.arr es))
  | .obj fs => strToNumber (jsToString (.obj fs))

/-- The relational comparison `value < m` against a number, as in the
`min`-bound checks: `ToNumber` the value, `NaN` compares false. -/
def jsLtB (v : JsValue) (m : JsNum) : Bool :=
  match jsToNumber v with
  | some x => JsNum.lt x m
  | none => false

/-- The relational comparison `value > m` against a number, as in the
`max`-bound checks. -/
def jsGtB (v : JsValue) (m : JsNum) : Bool :=
  match jsToNumber v with
  | some x => JsNum.lt m x
  | none => false

/-- Test whether `typeof value === "number"` and `Number.isInteger(value)`. -/
def valueIsWholeNumber : JsValue → Bool
  | .num n => n.isWhole
  | _ => false

/-- Test `typeof value === "number"`. -/
def isNumber : JsValue → Bool
  | .num _ => true
  | _ => false

/-- Test `typeof value === "string"`. -/
def isStr : JsValue → Bool
  | .str _ => true
  | _ => false

/-- Test `typeof value === "boolean"`. -/
def isBool : JsValue → Bool
  | .bool _ => true
  | _ => false

/-- Test `Array.isArray(value)`. -/
def isArr : JsValue → Bool
  | .arr _ => true
  | _ => false

/-- Test for a non-null, non-array object (the `getObject` success shape:
`val && typeof val === "object" && !Array.isArray(val)`). -/
def isObj : JsValue → Bool
  | .obj _ => true
  | _ => false

/-- The absent test shared by the two fast paths of `validateValue`:
`value === undefined || value === null || value === ""`. -/
def isAbsent : JsValue → Bool
  | .undefined => true
  | .null => true
  | .str s => s == ""
  | _ => false

/-- Whitespace skipped between JSON tokens. -/
def skipJsonWS (cs : List Char) : List Char :=
  cs.dropWhile fun c => c == ' ' || c == '\t' || c == '\n' || c == '\r'

/-- Value of a hexadecimal digit, if it is one. -/
def hexVal (c : Char) : Option Nat :=
  if isDig c then some (digVal c)
  else if 97 ≤ c.toNat && c.toNat ≤ 102 then some (c.toNat - 87)
  else if 65 ≤ c.toNat && c.toNat ≤ 70 then some (c.toNat - 55)
  else none

/-- A JSON number token at the head of the input: optional minus, an integer
part without superfluous leading zeros, optional fraction and exponent.
Returns the value and the remaining input. -/
def parseJsonNumberTok (cs : List Char) : Option (JsNum × List Char) :=
  let (neg, cs1) : Bool × List Char :=
    match cs with
    | '-' :: r => (true, r)
    | r => (false, r)
  let ip := cs1.takeWhile isDig
  let r1 := cs1.dropWhile isDig
  if ip.isEmpty then none
  else if 1 < ip.length && ip.head? == some '0' then none
  else
    let (fp, r2) : List Char × List Char :=
      match r1 with
      | '.' :: r2 => (r2.takeWhile isDig, r2.dropWhile isDig)
      | _ => ([], r1)
    if r1.head? == some '.' && fp.isEmpty then none
    else
      let mant : Int := (digitsToNat ip * 10 ^ fp.length + digitsToNat fp : Nat)
      let mant := if neg then -mant else mant
      match r2 with
      | e :: r3 =>
        if e == 'e' || e == 'E' then
          let (sgn, ds0) : Int × List Char :=
            match r3 with
            | '-' :: r4 => (-1, r4)
            | '+' :: r4 => (1, r4)
            | r4 => (1, r4)
          let ds := ds0.takeWhile isDig
          if ds.isEmpty then none
          else some (scalePow10 mant (10 ^ fp.length) (sgn * (digitsToNat ds : Int)), ds0.dropWhile isDig)
        else some (⟨mant, 10 ^ fp.length⟩, r2)
      | [] => some (⟨mant, 10 ^ fp.length⟩, r2)

mutual

/-- One JSON value at the head of the input (fuel-bounded recursion; the
fuel used by `jsonParse` dominates any possible recursion depth). -/
def parseJsonValue : Nat → List Char → Option (JsValue × List Char)
  | 0, _ => none
  | f + 1, cs0 =>
    match skipJsonWS cs0 with
    | '"' :: rest => (parseJsonString f rest).map fun p => (.str (String.mk p.1), p.2)
    | '[' :: rest =>
      (match skipJsonWS rest with
       | ']' :: r2 => some (.arr [], r2)
       | r1 => (parseJsonElems f r1).map fun p => (.arr p.1, p.2))
    | '\x7b' :: rest =>
      (match skipJsonWS rest with
       | '\x7d' :: r2 => some (.obj [], r2)
       | r1 => (parseJsonMembers f r1).map fun p => (.obj p.1, p.2))
    | 't' :: 'r' :: 'u' :: 'e' :: r => some (.bool true, r)
    | 'f' :: 'a' :: 'l' :: 's' :: 'e' :: r => some (.bool false, r)
    | 'n' :: 'u' :: 'l' :: 'l' :: r => some (.null, r)
    | cs => (parseJsonNumberTok cs).map fun p => (.num p.1, p.2)

/-- Comma-separated JSON array elements up to the closing bracket. -/
def parseJsonElems : Nat → List Char → Option (List JsValue × List Char)
  | 0, _ => none
  | f + 1, cs =>
    (parseJsonValue f cs).bind fun p =>
      match skipJsonWS p.2 with
      | ',' :: r2 => (parseJsonElems f r2).map fun q => (p.1 :: q.1, q.2)
      | ']' :: r2 => some ([p.1], r2)
      | _ => none

/-- Comma-separated JSON object members up to the closing brace. -/
def parseJsonMembers : Nat → List Char → Option (List (String × JsValue) × List Char)
  | 0, _ => none
  | f + 1, cs =>
    match skipJsonWS cs with
    | '"' :: r0 =>
      (parseJsonString f r0).bind fun kp =>
        match skipJsonWS kp.2 with
        | ':' :: r2 =>
          (parseJsonValue f r2).bind fun vp =>
            match skipJsonWS vp.2 with
            | ',' :: r4 => (parseJsonMembers f r4).map fun q => ((String.mk kp.1, vp.1) :: q.1, q.2)
            | '\x7d' :: r4 => some ([(String.mk kp.1, vp.1)], r4)
            | _ => none
        | _ => none
    | _ => none

/-- The tail of a JSON string after the opening quote, with the usual escape
sequences. -/
def parseJsonString : Nat → List Char → Option (List Char × List Char)
  | 0, _ => none
  | f + 1, cs =>
    match cs with
    | '"' :: r => some ([], r)
    | '\\' :: 'u' :: h1 :: h2 :: h3 :: h4 :: r =>
      (hexVal h1).bind fun a => (hexVal h2).bind fun b =>
        (hexVal h3).bind fun c => (hexVal h4).bind fun d =>
          let n := ((a * 16 + b) * 16 + c) * 16 + d
          (parseJsonString f r).map fun p => (Char.ofNat n :: p.1, p.2)
    | '\\' :: e :: r =>
      let c? : Option Char :=
        if e == '"' then some '"'
        else if e == '\\' then some '\\'
        else if e == '/' then some '/'
        else if e == 'b' then some '\x08'
        else if e == 'f' then some '\x0c'
        else if e == 'n' then some '\n'
        else if e == 'r' then some '\r'
        else if e == 't' then some '\t'
        else none
      c?.bind fun c => (parseJsonString f r).map fun p => (c :: p.1, p.2)
    | c :: r => (parseJsonString f r).map fun p => (c :: p.1, p.2)
    | [] => none

end

/-- Model of the platform `JSON.parse` as used on JSON-like value texts:
parse one JSON value and require only whitespace to remain.  (The reviver
argument is never passed by the loader; the fuel passed here dominates any
recursion depth reachable on the input.) -/
def jsonParse (s : String) : Option JsValue :=
  (parseJsonValue (4 * (s.length + 1)) s.data).bind fun p =>
    if (skipJsonWS p.2).isEmpty then some p.1 else none

/-- Modelled from the spec: `isJsonLike` (src/lib/isJsonLike.js is required
by the loader but missing from the repository snapshot).  Per §4.1 the text
is JSON-like when, after trimming, it begins with a brace or a bracket. -/
def isJsonLike (text : String) : Bool :=
  match trimChars text.data with
  | c :: _ => c == '\x7b' || c == '['
  | [] => false

/-- Integer-literal test for the primitive coercer: optional leading minus,
then at least one digit and digits only. -/
def isIntLit (cs : List Char) : Bool :=
  match cs with
  | '-' :: r => !r.isEmpty && r.all isDig
  | _ => !cs.isEmpty && cs.all isDig

/-- Value of an integer literal. -/
def intLitVal (cs : List Char) : Int :=
  match cs with
  | '-' :: r => -(digitsToNat r : Int)
  | _ => (digitsToNat cs : Int)

/-- Floating-point-literal test for the primitive coercer: optional leading
minus, digits, a point, digits. -/
def isFloatLit (cs : List Char) : Bool :=
  let b := match cs with
    | '-' :: r => r
    | _ => cs
  let ip := b.takeWhile isDig
  match b.dropWhile isDig with
  | '.' :: r2 => !ip.isEmpty && !r2.isEmpty && r2.all isDig
  | _ => false

/-- Value of a floating-point literal. -/
def floatLitVal (cs : List Char) : JsNum :=
  let (neg, b) : Bool × List Char :=
    match cs with
    | '-' :: r => (true, r)
    | r => (false, r)
  let ip := b.takeWhile isDig
  let fp := match b.dropWhile isDig with
    | '.' :: r2 => r2
    | _ => []
  let mant : Int := (digitsToNat ip * 10 ^ fp.length + digitsToNat fp : Nat)
  ⟨if neg then -mant else mant, 10 ^ fp.length⟩

/-- Modelled from the spec: `coercePrimitive` (src/lib/coercePrimitive.js is
required by the loader but missing from the repository snapshot).  Per §4.2,
in order: an integer literal becomes an integer; else a floating-point
literal becomes a float; else text case-insensitively equal to
`"true"`/`"false"` becomes a boolean; else the original string is kept
unchanged (an empty string stays an empty string). -/
def coercePrimitive (text : String) : JsValue :=
  if isIntLit text.data then .num ⟨intLitVal text.data, 1⟩
  else if isFloatLit text.data then .num (floatLitVal text.data)
  else if lowerJs text = "true" then .bool true
  else if lowerJs text = "false" then .bool false
  else .str text

/-- A schema rule, as consumed from configuration (src/lib/validateValue.js
reads `name`, `type`, `required`, `min`, `max`, `lowercase`, `uppercase`).
`required`, `lowercase` and `uppercase` model the truthiness test of the
source, so an absent flag is `false`; `min`/`max` model the `!= null`
test, so an absent bound is `none`. -/
structure EnvRule where
  name : String := ""
  type : String := ""
  required : Bool := false
  min : Option JsNum := none
  max : Option JsNum := none
  lowercase : Bool := false
  uppercase : Bool := false

/-- The key quoted as the validation messages quote it. -/
def quoteKey (key : String) : String :=
  "\"" ++ key ++ "\""

/-- Message for a missing required value. -/
def missingMsg (key : String) : String :=
  "Missing required value for " ++ quoteKey key

/-- Message for a non-integer value under an integer rule. -/
def intMsg (key : String) : String :=
  quoteKey key ++ " must be an integer"

/-- Message for a non-number value under a float rule. -/
def floatTypeMsg (key : String) : String :=
  quoteKey key ++ " must be a float"

/-- Message for a value below the `min` bound. -/
def geMsg (key : String) (m : JsNum) : String :=
  quoteKey key ++ " must be >= " ++ m.render

/-- Message for a value above the `max` bound. -/
def leMsg (key : String) (m : JsNum) : String :=
  quoteKey key ++ " must be <= " ++ m.render

/-- Message for a non-boolean value under a boolean rule. -/
def boolMsg (key : String) : String :=
  quoteKey key ++ " must be a boolean"

/-- Message for a non-string value under a string rule. -/
def strMsg (key : String) : String :=
  quoteKey key ++ " must be a string"

/-- Message for a string violating the lowercase constraint. -/
def lcMsg (key : String) : String :=
  quoteKey key ++ " must be lowercase"

/-- Message for a string violating the uppercase constraint. -/
def ucMsg (key : String) : String :=
  quoteKey key ++ " must be uppercase"

/-- Message for a string shorter than the `min` length. -/
def minLenMsg (key : String) (m : JsNum) : String :=
  quoteKey key ++ " must be at least " ++ m.render ++ " characters"

/-- Message for a string longer than the `max` length. -/
def maxLenMsg (key : String) (m : JsNum) : String :=
  quoteKey key ++ " must be at most " ++ m.render ++ " characters"

/-- Message for an invalid date. -/
def dateMsg (key : String) : String :=
  quoteKey key ++ " must be a valid date"

/-- Message for a time value not in `HH:MM` shape. -/
def timeFmtMsg (key : String) : String :=
  quoteKey key ++ " must be in HH:mm format"

/-- Message for a time value with an out-of-range hour or minute. -/
def timeRangeMsg (key : String) : String :=
  quoteKey key ++ " has invalid hour or minute"

/-- Message for a non-array value under an array rule. -/
def arrMsg (key : String) : String :=
  quoteKey key ++ " must be an array"

/-- Message for a non-object value under an object rule. -/
def objMsg (key : String) : String :=
  quoteKey key ++ " must be an object"

/-- Message for an unrecognized rule type. -/
def unknownTypeMsg (key : String) (ty : String) : String :=
  "Unknown type " ++ quoteKey ty ++ " for " ++ quoteKey key

/-- The regexp test for the pattern two digits, a colon, two digits,
anchored at both ends, applied to the string form of the value. -/
def timeFormatMatches (s : String) : Bool :=
  match s.data with
  | [a, b, c, d, e] => isDig a && isDig b && c == ':' && isDig d && isDig e
  | _ => false

/-- The comparison `x < c` where `x` came from `ToNumber` (so `none` is
`NaN` and compares false) and `c` is an integer constant. -/
def optNumLt (x : Option JsNum) (c : Int) : Bool :=
  match x with
  | some v => decide (v.num < c * (v.den : Int))
  | none => false

/-- The comparison `x > c` where `x` came from `ToNumber`. -/
def optNumGt (x : Option JsNum) (c : Int) : Bool :=
  match x with
  | some v => decide (c * (v.den : Int) < v.num)
  | none => false

/-- Modelled from the spec: the platform date parser behind `new Date(value)`
in the `date` rule (a builtin, not part of this repository).  Per §4.4 a
value passes when it can be parsed into a valid calendar date; numbers are
epoch milliseconds (always a valid date), strings must be an ISO
`YYYY-MM-DD` here (a simplification; the `date` rule is exercised by no
claim below). -/
def jsDateOk : JsValue → Bool
  | .num _ => true
  | .str s =>
    (match s.data with
     | [y1, y2, y3, y4, h1, m1, m2, h2, d1, d2] =>
       isDig y1 && isDig y2 && isDig y3 && isDig y4 && h1 == '-' && h2 == '-' &&
       isDig m1 && isDig m2 && isDig d1 && isDig d2 &&
       decide (1 ≤ 10 * digVal m1 + digVal m2) && decide (10 * digVal m1 + digVal m2 ≤ 12) &&
       decide (1 ≤ 10 * digVal d1 + digVal d2) && decide (10 * digVal d1 + digVal d2 ≤ 31)
     | _ => false)
  | _ => false

/-- The length of a string as JavaScript counts it for the `string` rule
bounds (code points here; the surrogate-pair distinction does not arise in
the treated inputs). -/
def jsStrLen (s : String) : Nat :=
  s.data.length

/-- The `time` case of `validateValue`: the regexp test runs on the string
form of the value; on a match the source calls `value.split(":")`, which
throws a `TypeError` unless the value is a string; the two split parts go
through `Number` (`ToNumber`) and the hour/minute range check uses
comparisons in which `NaN` compares false. -/
def timeBranch (key : String) (value : JsValue) : Except String (List String) :=
  if timeFormatMatches (jsToString value) then
    match value with
    | .str s =>
      let ns := (splitOnChar ':' s.data).map fun cs => strToNumber (String.mk cs)
      let h := ns.getD 0 none
      let m := ns.getD 1 none
      .ok (if optNumLt h 0 || optNumGt h 23 || optNumLt m 0 || optNumGt m 59 then
        [timeRangeMsg key] else [])
    | _ => .error "TypeError: value.split is not a function"
  else .ok [timeFmtMsg key]

/-- Shallow embedding of `validateValue` (src/lib/validateValue.js).  A
JavaScript `throw` is modelled as `Except.error`; the only reachable throw
is `value.split` on a non-string value whose string form passes the time
regexp test (see `timeBranch`). -/
def validateValue (key : String) (value : JsValue) (rule : EnvRule) : Except String (List String) :=
  if rule.required && isAbsent value then
    .ok [missingMsg key]
  else if isAbsent value then
    .ok []
  else if rule.type = "integer" then
    .ok ((if valueIsWholeNumber value then [] else [intMsg key])
      ++ (match rule.min with
          | some m => if jsLtB value m then [geMsg key m] else []
          | none => [])
      ++ (match rule.max with
          | some m => if jsGtB value m then [leMsg key m] else []
          | none => []))
  else if rule.type = "float" then
    .ok ((if isNumber value then [] else [floatTypeMsg key])
      ++ (match rule.min with
          | some m => if jsLtB value m then [geMsg key m] else []
          | none => [])
      ++ (match rule.max with
          | some m => if jsGtB value m then [leMsg key m] else []
          | none => []))
  else if rule.type = "boolean" then
    .ok (if isBool value then [] else [boolMsg key])
  else if rule.type = "string" then
    .ok (match value with
      | .str s =>
        (if rule.lowercase && !(s == lowerJs s) then [lcMsg key] else [])
          ++ (if rule.uppercase && !(s == upperJs s) then [ucMsg key] else [])
          ++ (match rule.min with
              | some m => if JsNum.lt ⟨(jsStrLen s : Int), 1⟩ m then [minLenMsg key m] else []
              | none => [])
          ++ (match rule.max with
              | some m => if JsNum.lt m ⟨(jsStrLen s : Int), 1⟩ then [maxLenMsg key m] else []
              | none => [])
      | _ => [strMsg key])
  else if rule.type = "date" then
    .ok (if jsDateOk value then [] else [dateMsg key])
  else if rule.type = "time" then
    timeBranch key value
  else if rule.type = "array" then
    .ok (if isArr value then [] else [arrMsg key])
  else if rule.type = "object" then
    .ok (match value with
      | .obj _ => []
      | _ => [objMsg key])
  else
    .ok [unknownTypeMsg key rule.type]

/-- A property descriptor, as passed to `Object.defineProperties`. -/
structure JsProp where
  value : JsValue
  writable : Bool
  enumerable : Bool
  configurable : Bool

/-- A JavaScript object: own properties in insertion order plus the
extensible flag (`Object.defineProperties({}, …)` leaves the object
extensible).  The function-valued accessor properties the loader also
defines are modelled as the Lean functions below rather than as stored
properties; the inherited `__proto__` accessor is not modelled (plain data
semantics for every key). -/
structure JsObject where
  props : List (String × JsProp)
  extensible : Bool

/-- Look up a key in an association list (first match). -/
def lookupKV {α : Type} : List (String × α) → String → Option α
  | [], _ => none
  | (k', v) :: rest, k => if k' = k then some v else lookupKV rest k

/-- Set a key in an association list: replace in place, else append —
the update semantics of a plain JavaScript object key write. -/
def upsert {α : Type} : List (String × α) → String → α → List (String × α)
  | [], k, v => [(k, v)]
  | (k', v') :: rest, k, v =>
    if k' = k then (k', v) :: rest else (k', v') :: upsert rest k v

/-- Remove a key from an association list (first match). -/
def removeKey {α : Type} : List (String × α) → String → List (String × α)
  | [], _ => []
  | (k', v) :: rest, k => if k' = k then rest else (k', v) :: removeKey rest k

/-- Property read `o[k]`: the stored value, `undefined` when absent. -/
def jsGetObj (o : JsObject) (k : String) : JsValue :=
  ((lookupKV o.props k).map JsProp.value).getD .undefined

/-- Non-strict property write `o[k] = v`: an existing non-writable property
ignores the write; an absent key is added when the object is extensible. -/
def jsAssign (o : JsObject) (k : String) (v : JsValue) : JsObject :=
  match lookupKV o.props k with
  | some p =>
    if p.writable then ⟨upsert o.props k { p with value := v }, o.extensible⟩ else o
  | none =>
    if o.extensible then ⟨o.props ++ [(k, ⟨v, true, true, true⟩)], o.extensible⟩ else o

/-- Non-strict `delete o[k]`: only configurable properties are removed. -/
def jsDelete (o : JsObject) (k : String) : JsObject :=
  match lookupKV o.props k with
  | some p => if p.configurable then ⟨removeKey o.props k, o.extensible⟩ else o
  | none => o

/-- The key/value contribution of one line of the loader's parse loop
(loadEnvFile.js lines 53–71): trim, skip blank and `#` lines and lines with
an empty name, split on `=`, rejoin and trim the value, and classify it as
JSON-like (structured parse with string fallback) or primitive.  `none`
means the line contributes nothing. -/
def lineKV (lineCs : List Char) : Option (String × JsValue) :=
  let trimmed := trimChars lineCs
  if trimmed.isEmpty then none
  else if trimmed.head? == some '#' then none
  else
    match splitOnChar '=' trimmed with
    | [] => none
    | nameCs :: rest =>
      if nameCs.isEmpty then none
      else
        let key := String.mk (trimChars nameCs)
        let valueText := String.mk (trimChars (joinWithEq rest))
        let v :=
          if isJsonLike valueText then
            match jsonParse valueText with
            | some j => j
            | none => .str valueText
          else coercePrimitive valueText
        some (key, v)

/-- One line of the loader's parse loop (loadEnvFile.js lines 53–81):
record the line's contribution as the raw value and its property
descriptor (`writable:false, enumerable:true, configurable:false`).
Duplicate keys overwrite in place (last line wins). -/
def procLine (st : List (String × JsValue) × List (String × JsProp)) (lineCs : List Char) :
    List (String × JsValue) × List (String × JsProp) :=
  match lineKV lineCs with
  | none => st
  | some (key, v) => (upsert st.1 key v, upsert st.2 key ⟨v, false, true, false⟩)

/-- The parse loop over all lines of the file text.  The source splits on
the regexp for an optional carriage return before a newline; splitting on
the newline alone is equivalent here because every use of a line first
trims it, which removes a trailing carriage return. -/
def parseEnvText (text : String) : List (String × JsValue) × List (String × JsProp) :=
  (splitOnChar '\n' text.data).foldl procLine ([], [])

/-- One step of the last-assignment-wins reading: a later assignment line
for the key replaces whatever came before. -/
def lastAssignStep (k : String) (acc : Option JsValue) (l : List Char) : Option JsValue :=
  match lineKV l with
  | some kv => if kv.1 = k then some kv.2 else acc
  | none => acc

/-- The last-assignment-wins reading of a line list, written from the
claim's words: the resolved value of a key is the value of the last
assignment line whose key it is (`none` when no line assigns it).  The
parse loop is proved to agree with this reading on every input. -/
def lastAssign (lines : List (List Char)) (k : String) : Option JsValue :=
  lines.foldl (lastAssignStep k) none

/-- The validation loop of `loadEnvFile` (lines 86–96): per rule, resolve
the value (absent key gives `undefined`), validate, and either collect the
errors or re-store the value into the descriptor table.  The re-store
`descriptors[key].value = value` throws a `TypeError` when the rule's key
was never parsed, because `descriptors[key]` is `undefined` then. -/
def applySchema (rawValues : List (String × JsValue)) :
    List (String × JsProp) → List EnvRule → Except String (List (String × JsProp) × List String)
  | descs, [] => .ok (descs, [])
  | descs, rule :: rest =>
    let value := (lookupKV rawValues rule.name).getD .undefined
    match validateValue rule.name value rule with
    | .error e => .error e
    | .ok valErrors =>
      if valErrors.isEmpty then
        match lookupKV descs rule.name with
        | none => .error "TypeError: Cannot set properties of undefined"
        | some p => applySchema rawValues (upsert descs rule.name { p with value := value }) rest
      else
        match applySchema rawValues descs rest with
        | .error e => .error e
        | .ok (d, es) => .ok (d, valErrors ++ es)

/-- The keys of the accessor properties added by the second
`Object.defineProperties` call; a data key with one of these names makes
that call throw, because the first call already defined the key as
non-configurable. -/
def accessorNames : List String :=
  ["get", "getString", "getInteger", "getFloat", "getBoolean", "getDate",
   "getTime", "getArray", "getObject"]

/-- Shallow embedding of `loadEnvFile` (src/lib/loadEnvFile.js) from the
point where the file text is in hand (the file read and the optional
decryption are the external collaborators of the spec; a missing file or a
decryption failure aborts before this pipeline).  Parses the lines, runs
the schema pass, attaches the non-enumerable `errors` and `hasErrors`
properties (overwriting any same-named descriptor parsed from the file),
and returns the config object, which is left extensible. -/
def loadEnvFile (text : String) (schema : List EnvRule) : Except String JsObject :=
  let st := parseEnvText text
  match applySchema st.1 st.2 schema with
  | .error e => .error e
  | .ok (descs, errors) =>
    let d1 := upsert descs "errors" ⟨.arr (errors.map .str), false, false, false⟩
    let d2 := upsert d1 "hasErrors" ⟨.bool (!errors.isEmpty), false, false, false⟩
    if accessorNames.any fun n => (lookupKV d2 n).isSome then
      .error "TypeError: Cannot redefine property"
    else
      .ok ⟨d2, true⟩

/-- The aggregated validation errors of a load, for stating what the
attached `errors` property holds. -/
def loadErrors (text : String) (schema : List EnvRule) : Except String (List String) :=
  let st := parseEnvText text
  match applySchema st.1 st.2 schema with
  | .error e => .error e
  | .ok (_, errors) => .ok errors

/-- The `get` accessor: the stored value, or the fallback for `undefined`
and `null` (the `??` operator). -/
def get (cfg : JsObject) (key : String) (fallback : JsValue) : JsValue :=
  match jsGetObj cfg key with
  | .undefined => fallback
  | .null => fallback
  | v => v

/-- The `getString` accessor: the stored value when it is a string, else
the fallback. -/
def getString (cfg : JsObject) (key : String) (fallback : JsValue) : JsValue :=
  match jsGetObj cfg key with
  | .str s => .str s
  | _ => fallback

/-- The `getInteger` accessor: `parseInt(val, 10)` on the stored value
(after `ToString`), the fallback when that is `NaN`. -/
def getInteger (cfg : JsObject) (key : String) (fallback : JsValue) : JsValue :=
  match parseIntJs (jsToString (jsGetObj cfg key)) with
  | some n => .num ⟨n, 1⟩
  | none => fallback

/-- The `getFloat` accessor: `parseFloat(val)` on the stored value, the
fallback when that is `NaN`. -/
def getFloat (cfg : JsObject) (key : String) (fallback : JsValue) : JsValue :=
  match parseFloatJs (jsToString (jsGetObj cfg key)) with
  | some n => .num n
  | none => fallback

/-- The `getBoolean` accessor: optional chaining returns the fallback for
`undefined`/`null`; otherwise the lower-cased string form is compared with
`"true"` and `"false"`. -/
def getBoolean (cfg : JsObject) (key : String) (fallback : JsValue) : JsValue :=
  match jsGetObj cfg key with
  | .undefined => fallback
  | .null => fallback
  | v =>
    let s := lowerJs (jsToString v)
    if s = "true" then .bool true
    else if s = "false" then .bool false
    else fallback

/-- The `getArray` accessor: the stored value when `Array.isArray`, else
the fallback. -/
def getArray (cfg : JsObject) (key : String) (fallback : JsValue) : JsValue :=
  match jsGetObj cfg key with
  | .arr es => .arr es
  | _ => fallback

/-- The `getObject` accessor: the stored value when it is a non-null,
non-array object, else the fallback. -/
def getObject (cfg : JsObject) (key : String) (fallback : JsValue) : JsValue :=
  match jsGetObj cfg key with
  | .obj fs => .obj fs
  | _ => fallback

/-- Whether `getDate` would return a date rather than the fallback (the
Date object it wraps is a platform value outside this embedding). -/
def getDateHits (cfg : JsObject) (key : String) : Bool :=
  jsDateOk (jsGetObj cfg key)

/-- The `getTime` accessor (loadEnvFile.js lines 204–225).  The regexp test
runs on the string form of the stored value; on a match the source calls
`val.split(":")`, which throws a `TypeError` unless the value is a string —
exactly the defect family of the time rule.  The split parts go through
`Number`, explicit `Number.isNaN` checks and the hour/minute range checks
guard the fallback.  `Except.error` models the throw; `.ok none` models
returning the caller's fallback; `.ok (some (h, m))` models the returned
Date with those hours and minutes set (the anchor to the current calendar
day is real time and outside this embedding). -/
def getTime (cfg : JsObject) (key : String) : Except String (Option (JsNum × JsNum)) :=
  if timeFormatMatches (jsToString (jsGetObj cfg key)) then
    match jsGetObj cfg key with
    | .str s =>
      let ns := (splitOnChar ':' s.data).map fun cs => strToNumber (String.mk cs)
      let h := ns.getD 0 none
      let m := ns.getD 1 none
      match h, m with
      | some hv, some mv =>
        .ok (if JsNum.lt hv ⟨0, 1⟩ || JsNum.lt ⟨23, 1⟩ hv ||
            JsNum.lt mv ⟨0, 1⟩ || JsNum.lt ⟨59, 1⟩ mv then
          none
        else
          some (hv, mv))
      | _, _ => .ok none
    | _ => .error "TypeError: val.split is not a function"
  else .ok none

/-- Validity of an `HH:MM` time string, written from the spec's words
(§4.4): two digits, a colon, two digits, with hour in `[0,23]` and minute
in `[0,59]`.  The time rule of `validateValue` is proved to accept exactly
the strings this predicate accepts. -/
def specTimeOk (s : String) : Bool :=
  match s.data with
  | [a, b, c, d, e] =>
    isDig a && isDig b && c == ':' && isDig d && isDig e &&
      decide (10 * digVal a + digVal b ≤ 23) && decide (10 * digVal d + digVal e ≤ 59)
  | _ => false

/-- The spec-side time validity lifted to values: only a string can be a
valid time. -/
def valueTimeOk : JsValue → Bool
  | .str s => specTimeOk s
  | _ => false

/-! Supporting lemmas. -/

theorem strDataAppend (s t : String) : (s ++ t).data = s.data ++ t.data := by
  cases s
  cases t
  rfl

theorem strAppendLeftCancel {a b c : String} (h : a ++ b = a ++ c) : b = c := by
  have hd : a.data ++ b.data = a.data ++ c.data := by
    have hdata := congrArg String.data h
    rwa [strDataAppend, strDataAppend] at hdata
  have hbc := List.append_cancel_left hd
  cases b
  cases c
  exact congrArg String.mk hbc

theorem tail_ne_ge (t : String) : " must be an integer" ≠ " must be >= " ++ t := by
  intro h
  have h9 : (" must be an integer").data.get? 9 = (" must be >= " ++ t).data.get? 9 := by
    rw [h]
  rw [strDataAppend] at h9
  have h9' : (some 'a' : Option Char) = some '>' := h9
  exact absurd h9' (by decide)

theorem tail_ne_le (t : String) : " must be an integer" ≠ " must be <= " ++ t := by
  intro h
  have h9 : (" must be an integer").data.get? 9 = (" must be <= " ++ t).data.get? 9 := by
    rw [h]
  rw [strDataAppend] at h9
  have h9' : (some 'a' : Option Char) = some '<' := h9
  exact absurd h9' (by decide)

theorem geMsg_ne_intMsg (k : String) (m : JsNum) : geMsg k m ≠ intMsg k := by
  intro h
  have h' : quoteKey k ++ (" must be >= " ++ m.render) = quoteKey k ++ " must be an integer" := by
    rw [← String.append_assoc]
    exact h
  exact tail_ne_ge m.render (strAppendLeftCancel h').symm

theorem leMsg_ne_intMsg (k : String) (m : JsNum) : leMsg k m ≠ intMsg k := by
  intro h
  have h' : quoteKey k ++ (" must be <= " ++ m.render) = quoteKey k ++ " must be an integer" := by
    rw [← String.append_assoc]
    exact h
  exact tail_ne_le m.render (strAppendLeftCancel h').symm

theorem lookup_upsert {α : Type} (l : List (String × α)) (k k' : String) (v : α) :
    lookupKV (upsert l k v) k' = if k = k' then some v else lookupKV l k' := by
  induction l with
  | nil =>
    by_cases hk : k = k' <;> simp [upsert, lookupKV, hk]
  | cons hd tl ih =>
    obtain ⟨k0, v0⟩ := hd
    by_cases h0 : k0 = k
    · subst h0
      by_cases hk : k0 = k' <;> simp [upsert, lookupKV, hk]
    · by_cases hk : k0 = k'
      · subst hk
        have : ¬ k = k0 := fun he => h0 he.symm
        simp [upsert, lookupKV, h0, this]
      · simp [upsert, lookupKV, h0, hk, ih]

/-- A property that can be neither rewritten nor deleted. -/
def locked (p : JsProp) : Prop :=
  p.writable = false ∧ p.configurable = false

/-- Every property of the descriptor table is locked. -/
def allLocked (l : List (String × JsProp)) : Prop :=
  ∀ k p, lookupKV l k = some p → locked p

theorem allLocked_nil : allLocked [] := by
  intro k p h
  simp [lookupKV] at h

theorem allLocked_upsert {l : List (String × JsProp)} {k : String} {p : JsProp}
    (h : allLocked l) (hp : locked p) : allLocked (upsert l k p) := by
  intro k' p' h'
  rw [lookup_upsert] at h'
  by_cases hk : k = k'
  · simp [hk] at h'
    exact h'.symm ▸ hp
  · simp [hk] at h'
    exact h k' p' h'

theorem allLocked_procLine (st : List (String × JsValue) × List (String × JsProp))
    (h : allLocked st.2) (cs : List Char) : allLocked (procLine st cs).2 := by
  unfold procLine
  rcases hkv : lineKV cs with _ | ⟨k, v⟩
  · exact h
  · exact allLocked_upsert h ⟨rfl, rfl⟩

theorem allLocked_foldl (lines : List (List Char)) :
    ∀ st, allLocked st.2 → allLocked (lines.foldl procLine st).2 := by
  induction lines with
  | nil => intro st h; exact h
  | cons l ls ih =>
    intro st h
    exact ih (procLine st l) (allLocked_procLine st h l)

theorem allLocked_parse (text : String) : allLocked (parseEnvText text).2 :=
  allLocked_foldl _ _ allLocked_nil

theorem allLocked_applySchema (rules : List EnvRule) :
    ∀ rv descs d' es, applySchema rv descs rules = .ok (d', es) → allLocked descs →
      allLocked d' := by
  induction rules with
  | nil =>
    intro rv descs d' es h hl
    simp [applySchema] at h
    exact h.1 ▸ hl
  | cons rule rest ih =>
    intro rv descs d' es h hl
    unfold applySchema at h
    dsimp only at h
    rcases hv : validateValue rule.name ((lookupKV rv rule.name).getD .undefined) rule with e | valErrors
    · rw [hv] at h
      simp at h
    · rw [hv] at h
      dsimp only at h
      by_cases he : valErrors.isEmpty
      · rw [if_pos he] at h
        rcases hd : lookupKV descs rule.name with _ | p
        · rw [hd] at h
          simp at h
        · rw [hd] at h
          have hp := hl rule.name p hd
          exact ih rv _ d' es h (allLocked_upsert hl ⟨hp.1, hp.2⟩)
      · rw [if_neg he] at h
        rcases hr : applySchema rv descs rest with e' | pr
        · rw [hr] at h
          simp at h
        · rw [hr] at h
          obtain ⟨d0, es0⟩ := pr
          simp at h
          exact h.1 ▸ ih rv descs d0 es0 hr hl

theorem allLocked_load {text : String} {schema : List EnvRule} {cfg : JsObject}
    (h : loadEnvFile text schema = .ok cfg) : allLocked cfg.props := by
  unfold loadEnvFile at h
  dsimp only at h
  rcases happ : applySchema (parseEnvText text).1 (parseEnvText text).2 schema with e | pr
  · rw [happ] at h
    simp at h
  · rw [happ] at h
    obtain ⟨d, errors⟩ := pr
    dsimp only at h
    by_cases hg : accessorNames.any fun n =>
      (lookupKV (upsert (upsert d "errors" ⟨.arr (errors.map .str), false, false, false⟩)
        "hasErrors" ⟨.bool (!errors.isEmpty), false, false, false⟩) n).isSome
    · rw [if_pos hg] at h
      simp at h
    · rw [if_neg hg] at h
      simp at h
      have hd : allLocked d :=
        allLocked_applySchema schema _ _ d errors happ (allLocked_parse text)
      have h1 := allLocked_upsert (k := "errors")
        (p := ⟨.arr (errors.map .str), false, false, false⟩) hd ⟨rfl, rfl⟩
      have h2 := allLocked_upsert (k := "hasErrors")
        (p := ⟨.bool (!errors.isEmpty), false, false, false⟩) h1 ⟨rfl, rfl⟩
      rw [← h]
      exact h2

theorem parse_foldl_raw (lines : List (List Char)) :
    ∀ (st : List (String × JsValue) × List (String × JsProp)) (k : String),
      lookupKV (lines.foldl procLine st).1 k =
        lines.foldl (lastAssignStep k) (lookupKV st.1 k) := by
  induction lines with
  | nil => intro st k; rfl
  | cons l ls ih =>
    intro st k
    rw [List.foldl_cons, List.foldl_cons, ih (procLine st l) k]
    congr 1
    unfold procLine lastAssignStep
    rcases hkv : lineKV l with _ | ⟨k0, v⟩
    · rfl
    · dsimp only
      rw [lookup_upsert]

theorem parse_desc_mirror (lines : List (List Char)) :
    ∀ (st : List (String × JsValue) × List (String × JsProp)) (k : String),
      lookupKV st.2 k = (lookupKV st.1 k).map (fun v => (⟨v, false, true, false⟩ : JsProp)) →
      lookupKV (lines.foldl procLine st).2 k =
        (lookupKV (lines.foldl procLine st).1 k).map
          (fun v => (⟨v, false, true, false⟩ : JsProp)) := by
  induction lines with
  | nil => intro st k h; exact h
  | cons l ls ih =>
    intro st k h
    rw [List.foldl_cons]
    apply ih
    unfold procLine
    rcases hkv : lineKV l with _ | ⟨k0, v⟩
    · exact h
    · dsimp only
      rw [lookup_upsert, lookup_upsert]
      by_cases hk : k0 = k <;> simp [hk, h]

theorem jsToString_str (s : String) : jsToString (.str s) = s := rfl

theorem jsToString_undefined : jsToString .undefined = "undefined" := rfl

/-! Claim theorems. -/

/-- C1: for a rule that is not required and whose name matches no parsed
key, `validateValue` indeed produces no errors — but `loadEnvFile` does not
run to completion: the re-store `descriptors[key].value = value` throws a
`TypeError` because `descriptors[key]` is `undefined`.  The claim's
completion half is contradicted by the code on this ordinary input, against
the function's own documented contract of returning a config object with
the errors attached. -/
theorem c1_optional_absent_key_crashes :
    validateValue "X" .undefined { name := "X", type := "string" } = .ok [] ∧
    loadEnvFile "A=1" [{ name := "X", type := "string" }] =
      .error "TypeError: Cannot set properties of undefined" :=
  ⟨rfl, rfl⟩

/-- C2: a required rule with an absent value (`undefined`, `null` or the
empty string, exactly the `isAbsent` test) yields the single
missing-required-value error naming the key and short-circuits, whatever
the rule's type, bounds, or case flags. -/
theorem c2_required_missing_short_circuits (key : String) (value : JsValue) (rule : EnvRule)
    (hreq : rule.required = true) (habs : isAbsent value = true) :
    validateValue key value rule = .ok [missingMsg key] := by
  simp [validateValue, hreq, habs]

/-- Witness for C2 at a concrete rule and value. -/
theorem c2_witness :
    ({ name := "X", type := "string", required := true } : EnvRule).required = true ∧
    isAbsent .undefined = true ∧
    validateValue "X" .undefined { name := "X", type := "string", required := true } =
      .ok [missingMsg "X"] :=
  ⟨rfl, rfl, c2_required_missing_short_circuits "X" .undefined _ rfl rfl⟩

/-- C4: under the rule `name N, integer, min 1, max 10`, the value `15`
produces exactly the must-be-at-most error, `-1` exactly the
must-be-at-least error, and `5` no errors. -/
theorem c4_integer_bounds :
    validateValue "N" (.num ⟨15, 1⟩)
        { name := "N", type := "integer", min := some ⟨1, 1⟩, max := some ⟨10, 1⟩ } =
      .ok ["\"N\" must be <= 10"] ∧
    validateValue "N" (.num ⟨-1, 1⟩)
        { name := "N", type := "integer", min := some ⟨1, 1⟩, max := some ⟨10, 1⟩ } =
      .ok ["\"N\" must be >= 1"] ∧
    validateValue "N" (.num ⟨5, 1⟩)
        { name := "N", type := "integer", min := some ⟨1, 1⟩, max := some ⟨10, 1⟩ } =
      .ok [] :=
  ⟨rfl, rfl, rfl⟩

/-- C5 counterexample: `null` is a non-numeric value and the rule has both
bounds set, yet validation returns no error at all — the type-mismatch
error does not appear "exactly once" (the claim misses the absent-value
fast path). -/
theorem c5_counterexample :
    isNumber .null = false ∧
    validateValue "N" .null
        { name := "N", type := "integer", min := some ⟨1, 1⟩, max := some ⟨10, 1⟩ } =
      .ok [] :=
  ⟨rfl, rfl⟩

/-- C5 amended: for every non-absent non-numeric value against an integer
rule with both bounds set, the type-mismatch error appears exactly once in
the result, not duplicated by the bound checks. -/
theorem c5_amended (key : String) (v : JsValue) (rule : EnvRule)
    (hty : rule.type = "integer") (hmin : rule.min.isSome = true)
    (hmax : rule.max.isSome = true) (hnum : isNumber v = false)
    (habs : isAbsent v = false) :
    (validateValue key v rule).map (fun errs => errs.count (intMsg key)) = .ok 1 := by
  obtain ⟨m1, hm1⟩ := Option.isSome_iff_exists.mp hmin
  obtain ⟨m2, hm2⟩ := Option.isSome_iff_exists.mp hmax
  have hw : valueIsWholeNumber v = false := by
    cases v <;> simp_all [valueIsWholeNumber, isNumber]
  have hg : (geMsg key m1 == intMsg key) = false :=
    beq_eq_false_iff_ne.mpr (geMsg_ne_intMsg key m1)
  have hL : (leMsg key m2 == intMsg key) = false :=
    beq_eq_false_iff_ne.mpr (leMsg_ne_intMsg key m2)
  by_cases hlt : jsLtB v m1 <;> by_cases hgt : jsGtB v m2 <;>
    simp [validateValue, habs, hty, hw, hm1, hm2, hlt, hgt, Except.map, List.count_cons,
      List.count_nil, List.count_append, hg, hL]

/-- Witness for C5 amended at a concrete non-numeric value. -/
theorem c5_witness :
    isNumber (.str "abc") = false ∧ isAbsent (.str "abc") = false ∧
    (validateValue "N" (.str "abc")
        { name := "N", type := "integer", min := some ⟨1, 1⟩, max := some ⟨10, 1⟩ }).map
      (fun errs => errs.count (intMsg "N")) = .ok 1 :=
  ⟨rfl, rfl, c5_amended "N" (.str "abc") _ rfl rfl rfl rfl rfl⟩

/-- C7 counterexample: with file text `K=7a` the stored value for `K` is
the string `"7a"` — a runtime shape that does not match the integer type —
yet `getInteger` returns the parsed prefix `7` rather than the fallback
`42` (the getter parses permissively, it does not type-check the shape). -/
theorem c7_counterexample :
    (loadEnvFile "K=7a" []).map
        (fun c => (jsGetObj c "K", getInteger c "K" (.num ⟨42, 1⟩))) =
      .ok (.str "7a", .num ⟨7, 1⟩) ∧
    (JsValue.num ⟨7, 1⟩ ≠ .num ⟨42, 1⟩) ∧ isNumber (.str "7a") = false :=
  ⟨rfl, by simp, rfl⟩

/-- C7 amended, one clause per getter contract: `getInteger` falls back on
a missing key; `getBoolean` accepts a stored string `"TRUE"`; `getString`,
`getArray` and `getObject` fall back on every non-matching shape;
`getInteger` and `getFloat` parse the stored value's string form and fall
back exactly when parsing yields `NaN` (parse failure gives the fallback,
parse success gives the parsed number); `getBoolean` falls back unless the
stored value's lower-cased string form is `"true"` or `"false"`; and
`getTime` — the only getter whose source contains a throwing operation —
throws its `TypeError` precisely when the stored value is a non-string
whose string form matches the two-digits, colon, two-digits pattern, and
returns the fallback whenever the pattern test fails. -/
theorem c7_amended :
    (∀ (cfg : JsObject) (key : String) (fb : JsValue),
        jsGetObj cfg key = .undefined → getInteger cfg key fb = fb) ∧
    (∀ (cfg : JsObject) (key : String) (fb : JsValue),
        jsGetObj cfg key = .str "TRUE" → getBoolean cfg key fb = .bool true) ∧
    (∀ (cfg : JsObject) (key : String) (fb : JsValue),
        isStr (jsGetObj cfg key) = false → getString cfg key fb = fb) ∧
    (∀ (cfg : JsObject) (key : String) (fb : JsValue) (s : String),
        jsGetObj cfg key = .str s → parseIntJs s = none → getInteger cfg key fb = fb) ∧
    (∀ (cfg : JsObject) (key : String) (fb : JsValue) (s : String) (n : Int),
        jsGetObj cfg key = .str s → parseIntJs s = some n →
        getInteger cfg key fb = .num ⟨n, 1⟩) ∧
    (∀ (cfg : JsObject) (key : String) (fb : JsValue),
        jsGetObj cfg key = .undefined → getFloat cfg key fb = fb) ∧
    (∀ (cfg : JsObject) (key : String) (fb : JsValue) (s : String),
        jsGetObj cfg key = .str s → parseFloatJs s = none → getFloat cfg key fb = fb) ∧
    (∀ (cfg : JsObject) (key : String) (fb : JsValue) (s : String) (n : JsNum),
        jsGetObj cfg key = .str s → parseFloatJs s = some n →
        getFloat cfg key fb = .num n) ∧
    (∀ (cfg : JsObject) (key : String) (fb : JsValue),
        isArr (jsGetObj cfg key) = false → getArray cfg key fb = fb) ∧
    (∀ (cfg : JsObject) (key : String) (fb : JsValue),
        isObj (jsGetObj cfg key) = false → getObject cfg key fb = fb) ∧
    (∀ (cfg : JsObject) (key : String) (fb : JsValue),
        jsGetObj cfg key ≠ .undefined → jsGetObj cfg key ≠ .null →
        lowerJs (jsToString (jsGetObj cfg key)) ≠ "true" →
        lowerJs (jsToString (jsGetObj cfg key)) ≠ "false" →
        getBoolean cfg key fb = fb) ∧
    (∀ (cfg : JsObject) (key : String) (e : String),
        getTime cfg key = .error e →
        isStr (jsGetObj cfg key) = false ∧
          timeFormatMatches (jsToString (jsGetObj cfg key)) = true) ∧
    (∀ (cfg : JsObject) (key : String),
        isStr (jsGetObj cfg key) = false →
        timeFormatMatches (jsToString (jsGetObj cfg key)) = true →
        getTime cfg key = .error "TypeError: val.split is not a function") ∧
    (∀ (cfg : JsObject) (key : String),
        timeFormatMatches (jsToString (jsGetObj cfg key)) = false →
        getTime cfg key = .ok none) := by
  refine ⟨?_, ?_, ?_, ?_, ?_, ?_, ?_, ?_, ?_, ?_, ?_, ?_, ?_, ?_⟩
  · intro cfg key fb h
    simp [getInteger, h, jsToString_undefined]
    rfl
  · intro cfg key fb h
    unfold getBoolean
    rw [h]
    rfl
  · intro cfg key fb h
    unfold getString
    rcases hv : jsGetObj cfg key with _ | _ | b | n | s | es | fs <;> try rfl
    rw [hv] at h
    simp [isStr] at h
  · intro cfg key fb s h hp
    simp [getInteger, h, jsToString_str, hp]
  · intro cfg key fb s n h hp
    simp [getInteger, h, jsToString_str, hp]
  · intro cfg key fb h
    simp [getFloat, h, jsToString_undefined]
    rfl
  · intro cfg key fb s h hp
    simp [getFloat, h, jsToString_str, hp]
  · intro cfg key fb s n h hp
    simp [getFloat, h, jsToString_str, hp]
  · intro cfg key fb h
    unfold getArray
    rcases hv : jsGetObj cfg key with _ | _ | b | n | s | es | fs <;> try rfl
    rw [hv] at h
    simp [isArr] at h
  · intro cfg key fb h
    unfold getObject
    rcases hv : jsGetObj cfg key with _ | _ | b | n | s | es | fs <;> try rfl
    rw [hv] at h
    simp [isObj] at h
  · intro cfg key fb hu hn ht hf
    unfold getBoolean
    rcases hv : jsGetObj cfg key with _ | _ | b | n | s | es | fs
    · exact absurd hv hu
    · exact absurd hv hn
    all_goals rw [hv] at ht hf
    all_goals dsimp only
    all_goals rw [if_neg ht, if_neg hf]
  · intro cfg key e he
    unfold getTime at he
    by_cases hfmt : timeFormatMatches (jsToString (jsGetObj cfg key))
    · rw [if_pos hfmt] at he
      rcases hv : jsGetObj cfg key with _ | _ | b | n | s | es | fs <;> rw [hv] at he hfmt
      · exact ⟨rfl, hfmt⟩
      · exact ⟨rfl, hfmt⟩
      · exact ⟨rfl, hfmt⟩
      · exact ⟨rfl, hfmt⟩
      · dsimp only at he
        split at he <;> simp at he
      · exact ⟨rfl, hfmt⟩
      · exact ⟨rfl, hfmt⟩
    · rw [if_neg hfmt] at he
      simp at he
  · intro cfg key hstr hfmt
    unfold getTime
    rw [if_pos hfmt]
    rcases hv : jsGetObj cfg key with _ | _ | b | n | s | es | fs
    · rfl
    · rfl
    · rfl
    · rfl
    · rw [hv] at hstr
      simp [isStr] at hstr
    · rfl
    · rfl
  · intro cfg key hfmt
    unfold getTime
    rw [if_neg (by simp [hfmt])]

/-- Witness config for C7: a stored string `"TRUE"` under `flag` and
nothing under `missing`. -/
def cfgTrue : JsObject :=
  ⟨[("flag", ⟨.str "TRUE", false, true, false⟩)], true⟩

/-- Witness config for C7: a stored array under `T` whose string form
matches the time pattern. -/
def cfgT : JsObject :=
  ⟨[("T", ⟨.arr [.str "23:59"], false, true, false⟩)], true⟩

/-- Witness for C7 amended at concrete lookups, including the `getTime`
throw on a stored non-string whose string form matches the pattern. -/
theorem c7_witness :
    jsGetObj cfgTrue "missing" = .undefined ∧
    getInteger cfgTrue "missing" (.num ⟨42, 1⟩) = .num ⟨42, 1⟩ ∧
    getFloat cfgTrue "missing" (.num ⟨42, 1⟩) = .num ⟨42, 1⟩ ∧
    jsGetObj cfgTrue "flag" = .str "TRUE" ∧
    getBoolean cfgTrue "flag" (.bool false) = .bool true ∧
    getTime cfgT "T" = .error "TypeError: val.split is not a function" := by
  have hsz : jsSize (.arr [.str "23:59"]) = 3 := by
    simp [jsSize, jsSizeList]
  have hstr : jsToString (.arr [.str "23:59"]) = "23:59" := by
    unfold jsToString
    rw [hsz]
    rfl
  refine ⟨rfl, c7_amended.1 cfgTrue "missing" _ rfl, ?_, rfl, ?_, ?_⟩
  · exact c7_amended.2.2.2.2.2.1 cfgTrue "missing" _ rfl
  · exact c7_amended.2.1 cfgTrue "flag" _ rfl
  · refine c7_amended.2.2.2.2.2.2.2.2.2.2.2.2.1 cfgT "T" rfl ?_
    show timeFormatMatches (jsToString (jsGetObj cfgT "T")) = true
    have hT : jsGetObj cfgT "T" = .arr [.str "23:59"] := rfl
    rw [hT, hstr]
    rfl

/-- C8: duplicate keys resolve last-line-wins on every input — for every
file text and key, the parsed raw value (and its descriptor) is exactly the
value of the last assignment line for that key, the reading `lastAssign`
written from the claim's words — and for `A=1\nA=2` the resolved value of
`A` is the integer `2`. -/
theorem c8_last_line_wins :
    (∀ (text k : String),
      lookupKV (parseEnvText text).1 k = lastAssign (splitOnChar '\n' text.data) k ∧
      lookupKV (parseEnvText text).2 k =
        (lastAssign (splitOnChar '\n' text.data) k).map
          (fun v => (⟨v, false, true, false⟩ : JsProp))) ∧
    (loadEnvFile "A=1\nA=2" []).map (fun c => jsGetObj c "A") = .ok (.num ⟨2, 1⟩) := by
  refine ⟨fun text k => ⟨?_, ?_⟩, rfl⟩
  · exact parse_foldl_raw (splitOnChar '\n' text.data) ([], []) k
  · have h2 := parse_desc_mirror (splitOnChar '\n' text.data) ([], []) k rfl
    have h1 := parse_foldl_raw (splitOnChar '\n' text.data) ([], []) k
    show lookupKV ((splitOnChar '\n' text.data).foldl procLine ([], [])).2 k = _
    rw [h2, h1]
    rfl

/-- C3 counterexample: the config returned for `A=1` is left extensible, so
assigning to the fresh key `B` adds it and a subsequent read observes the
assigned value — contradicting the claim that no key can be added. -/
theorem c3_counterexample :
    (loadEnvFile "A=1" []).map
        (fun c => (jsGetObj c "B", jsGetObj (jsAssign c "B" (.num ⟨5, 1⟩)) "B")) =
      .ok (.undefined, .num ⟨5, 1⟩) :=
  rfl

/-- C3 amended: every property the returned config does own is non-writable
and non-configurable, so overwriting a resolved key has no effect (the
object is unchanged and a subsequent read observes the original value) and
no key can be removed; but the object is left extensible, so fresh keys can
still be added. -/
theorem c3_amended (text : String) (schema : List EnvRule) (cfg : JsObject)
    (h : loadEnvFile text schema = .ok cfg) (k : String)
    (hk : (lookupKV cfg.props k).isSome = true) (v : JsValue) :
    jsAssign cfg k v = cfg ∧ jsDelete cfg k = cfg ∧
      jsGetObj (jsAssign cfg k v) k = jsGetObj cfg k := by
  obtain ⟨p, hp⟩ := Option.isSome_iff_exists.mp hk
  have hl := allLocked_load h k p hp
  have h1 : jsAssign cfg k v = cfg := by
    simp [jsAssign, hp, hl.1]
  have h2 : jsDelete cfg k = cfg := by
    simp [jsDelete, hp, hl.2]
  exact ⟨h1, h2, by rw [h1]⟩

/-- Witness config for C3: the load of `A=1` with no schema. -/
def cfgA : JsObject :=
  match loadEnvFile "A=1" [] with
  | .ok c => c
  | .error _ => ⟨[], true⟩

/-- Witness for C3 amended at the resolved key `A`. -/
theorem c3_witness :
    (lookupKV cfgA.props "A").isSome = true ∧
    jsAssign cfgA "A" (.num ⟨9, 1⟩) = cfgA ∧ jsDelete cfgA "A" = cfgA ∧
      jsGetObj (jsAssign cfgA "A" (.num ⟨9, 1⟩)) "A" = jsGetObj cfgA "A" := by
  have h := c3_amended "A=1" [] cfgA rfl "A" rfl (.num ⟨9, 1⟩)
  exact ⟨rfl, h.1, h.2.1, h.2.2⟩

/-- C9: whatever assignment lines the file contains (in particular lines
for the keys `errors` or `hasErrors`), on a successful load the returned
config's `errors` property is the aggregated validation-error sequence and
`hasErrors` is its non-emptiness flag — the attached descriptors overwrite
any file-supplied descriptor of the same name, so the file value is not
observable. -/
theorem c9_attached_properties_shadow (text : String) (schema : List EnvRule)
    (cfg : JsObject) (es : List String)
    (h1 : loadEnvFile text schema = .ok cfg) (h2 : loadErrors text schema = .ok es) :
    jsGetObj cfg "errors" = .arr (es.map .str) ∧
      jsGetObj cfg "hasErrors" = .bool (!es.isEmpty) := by
  unfold loadEnvFile at h1
  unfold loadErrors at h2
  dsimp only at h1 h2
  rcases happ : applySchema (parseEnvText text).1 (parseEnvText text).2 schema with e | pr
  · rw [happ] at h1
    simp at h1
  · rw [happ] at h1 h2
    obtain ⟨d, errors⟩ := pr
    dsimp only at h1 h2
    have hes : errors = es := by simpa using h2
    by_cases hg : accessorNames.any fun n =>
      (lookupKV (upsert (upsert d "errors" ⟨.arr (errors.map .str), false, false, false⟩)
        "hasErrors" ⟨.bool (!errors.isEmpty), false, false, false⟩) n).isSome
    · rw [if_pos hg] at h1
      simp at h1
    · rw [if_neg hg] at h1
      have hcfg : cfg =
          ⟨upsert (upsert d "errors" ⟨.arr (errors.map .str), false, false, false⟩)
            "hasErrors" ⟨.bool (!errors.isEmpty), false, false, false⟩, true⟩ := by
        simpa using h1.symm
      subst hcfg
      constructor
      · simp [jsGetObj, lookup_upsert, hes]
      · simp [jsGetObj, lookup_upsert, hes]

/-- Witness config for C9: a file that supplies its own `errors` and
`hasErrors` lines, loaded with no schema. -/
def cfgErrs : JsObject :=
  match loadEnvFile "errors=oops\nhasErrors=nope" [] with
  | .ok c => c
  | .error _ => ⟨[], true⟩

/-- Witness for C9 with a file that supplies its own `errors` and
`hasErrors` lines: the attached properties shadow them. -/
theorem c9_witness :
    jsGetObj cfgErrs "errors" = .arr [] ∧ jsGetObj cfgErrs "hasErrors" = .bool false ∧
      jsGetObj cfgErrs "errors" ≠ .str "oops" := by
  have h := c9_attached_properties_shadow "errors=oops\nhasErrors=nope" [] cfgErrs [] rfl rfl
  exact ⟨h.1, h.2, by rw [h.1]; simp⟩

/-- C10: the bound checks of the numeric rules run independently of the
failed type check, for the integer and for the float branch and for both
bounds — a non-empty string comparing numerically below `min` (above
`max`) collects both the type error and the respective bound error —
while the string rule runs its case and length checks only on strings: a
non-absent non-string value yields exactly the single type-mismatch
error. -/
theorem c10_bounds_follow_failed_type_check :
    (∀ (key s : String) (rule : EnvRule) (m : JsNum), rule.type = "integer" →
      rule.min = some m → isAbsent (.str s) = false → jsLtB (.str s) m = true →
      ∀ errs, validateValue key (.str s) rule = .ok errs →
        intMsg key ∈ errs ∧ geMsg key m ∈ errs) ∧
    (∀ (key s : String) (rule : EnvRule) (m : JsNum), rule.type = "integer" →
      rule.max = some m → isAbsent (.str s) = false → jsGtB (.str s) m = true →
      ∀ errs, validateValue key (.str s) rule = .ok errs →
        intMsg key ∈ errs ∧ leMsg key m ∈ errs) ∧
    (∀ (key s : String) (rule : EnvRule) (m : JsNum), rule.type = "float" →
      rule.min = some m → isAbsent (.str s) = false → jsLtB (.str s) m = true →
      ∀ errs, validateValue key (.str s) rule = .ok errs →
        floatTypeMsg key ∈ errs ∧ geMsg key m ∈ errs) ∧
    (∀ (key s : String) (rule : EnvRule) (m : JsNum), rule.type = "float" →
      rule.max = some m → isAbsent (.str s) = false → jsGtB (.str s) m = true →
      ∀ errs, validateValue key (.str s) rule = .ok errs →
        floatTypeMsg key ∈ errs ∧ leMsg key m ∈ errs) ∧
    (∀ (key : String) (v : JsValue) (rule : EnvRule), rule.type = "string" →
      rule.lowercase = true → rule.min.isSome = true → rule.max.isSome = true →
      isStr v = false → isAbsent v = false →
      validateValue key v rule = .ok [strMsg key]) := by
  refine ⟨?_, ?_, ?_, ?_, ?_⟩
  · intro key s rule m hty hm habs hlt errs heq
    have hw : valueIsWholeNumber (.str s) = false := rfl
    simp [validateValue, habs, hty, hw, hm, hlt] at heq
    subst heq
    constructor
    · simp
    · simp
  · intro key s rule m hty hm habs hgt errs heq
    have hw : valueIsWholeNumber (.str s) = false := rfl
    simp [validateValue, habs, hty, hw, hm, hgt] at heq
    subst heq
    constructor
    · simp
    · simp
  · intro key s rule m hty hm habs hlt errs heq
    have hw : isNumber (.str s) = false := rfl
    simp [validateValue, habs, hty, hw, hm, hlt] at heq
    subst heq
    constructor
    · simp
    · simp
  · intro key s rule m hty hm habs hgt errs heq
    have hw : isNumber (.str s) = false := rfl
    simp [validateValue, habs, hty, hw, hm, hgt] at heq
    subst heq
    constructor
    · simp
    · simp
  · intro key v rule hty hlc hmin hmax hstr habs
    cases v <;> simp_all [validateValue, isStr, isAbsent]

/-- Witness for C10 at concrete inputs: the string `"0"` under an integer
rule with `min 1` and under a float rule with `min 1` collects the type
error and the bound error in each case; the number `3` under a string rule
with case and length constraints yields only the type error. -/
theorem c10_witness :
    (intMsg "N" ∈ [intMsg "N", geMsg "N" ⟨1, 1⟩] ∧
      geMsg "N" ⟨1, 1⟩ ∈ [intMsg "N", geMsg "N" ⟨1, 1⟩]) ∧
    (floatTypeMsg "F" ∈ [floatTypeMsg "F", geMsg "F" ⟨1, 1⟩] ∧
      geMsg "F" ⟨1, 1⟩ ∈ [floatTypeMsg "F", geMsg "F" ⟨1, 1⟩]) ∧
    validateValue "K" (.num ⟨3, 1⟩)
        { name := "K", type := "string", lowercase := true, min := some ⟨1, 1⟩,
          max := some ⟨9, 1⟩ } = .ok [strMsg "K"] :=
  ⟨c10_bounds_follow_failed_type_check.1 "N" "0"
      { name := "N", type := "integer", min := some ⟨1, 1⟩ } ⟨1, 1⟩ rfl rfl rfl rfl
      [intMsg "N", geMsg "N" ⟨1, 1⟩] rfl,
    c10_bounds_follow_failed_type_check.2.2.1 "F" "0"
      { name := "F", type := "float", min := some ⟨1, 1⟩ } ⟨1, 1⟩ rfl rfl rfl rfl
      [floatTypeMsg "F", geMsg "F" ⟨1, 1⟩] rfl,
    c10_bounds_follow_failed_type_check.2.2.2.2 "K" (.num ⟨3, 1⟩)
      { name := "K", type := "string", lowercase := true, min := some ⟨1, 1⟩,
        max := some ⟨9, 1⟩ } rfl rfl rfl rfl rfl rfl⟩

/-- C10 counterexample: the empty string is string-typed and compares
numerically below `min 1` (its `ToNumber` is `0`), yet validation returns
no errors at all — the absent-value fast path runs first, so the claim
needs its non-absent qualification. -/
theorem c10_counterexample :
    jsLtB (.str "") ⟨1, 1⟩ = true ∧
    validateValue "N" (.str "")
        { name := "N", type := "integer", min := some ⟨1, 1⟩, max := some ⟨10, 1⟩ } =
      .ok [] :=
  ⟨rfl, rfl⟩

/-! Support for the time rule (C6). -/

theorem isDig_bounds {c : Char} (h : isDig c = true) : 48 ≤ c.toNat ∧ c.toNat ≤ 57 := by
  simpa [isDig] using h

theorem digit_beq_ne {c d : Char} (h : isDig c = true)
    (hd : d.toNat < 48 ∨ 57 < d.toNat) : (c == d) = false := by
  cases hb : c == d
  · rfl
  · have hcd : c = d := eq_of_beq hb
    subst hcd
    have hb2 := isDig_bounds h
    omega

theorem digit_not_ws {c : Char} (h : isDig c = true) : jsWS c = false := by
  have hb := isDig_bounds h
  simp only [jsWS, Bool.or_eq_false_iff, decide_eq_false_iff_not]
  omega

theorem trimChars_pair {a b : Char} (ha : isDig a = true) (hb : isDig b = true) :
    trimChars [a, b] = [a, b] := by
  simp [trimChars, List.dropWhile, digit_not_ws ha, digit_not_ws hb]

theorem strToNumber_two_digits {a b : Char} (ha : isDig a = true) (hb : isDig b = true) :
    strToNumber (String.mk [a, b]) = some ⟨((10 * digVal a + digVal b : Nat) : Int), 1⟩ := by
  have hna : (a == '-') = false := digit_beq_ne ha (Or.inl (by decide))
  have hpa : (a == '+') = false := digit_beq_ne ha (Or.inl (by decide))
  unfold strToNumber
  simp only [trimChars_pair ha hb]
  simp [hna, hpa, parseUnsignedNum, List.takeWhile, List.dropWhile, ha, hb, digitsToNat]

theorem splitColon_time {a b d e : Char} (ha : isDig a = true) (hb : isDig b = true)
    (hd : isDig d = true) (he : isDig e = true) :
    splitOnChar ':' [a, b, ':', d, e] = [[a, b], [d, e]] := by
  have h1 : (a == ':') = false := digit_beq_ne ha (Or.inr (by decide))
  have h2 : (b == ':') = false := digit_beq_ne hb (Or.inr (by decide))
  have h3 : (d == ':') = false := digit_beq_ne hd (Or.inr (by decide))
  have h4 : (e == ':') = false := digit_beq_ne he (Or.inr (by decide))
  simp [splitOnChar, h1, h2, h3, h4]

theorem timeFormat_shape {s : String} (h : timeFormatMatches s = true) :
    ∃ a b d e, s.data = [a, b, ':', d, e] ∧ isDig a = true ∧ isDig b = true ∧
      isDig d = true ∧ isDig e = true := by
  unfold timeFormatMatches at h
  rcases hs : s.data with _ | ⟨a, _ | ⟨b, _ | ⟨c, _ | ⟨d, _ | ⟨e, _ | ⟨f, rest⟩⟩⟩⟩⟩⟩ <;>
    rw [hs] at h
  case cons.cons.cons.cons.cons.nil =>
    simp only [Bool.and_eq_true] at h
    obtain ⟨⟨⟨⟨ha, hb⟩, hc⟩, hd⟩, he⟩ := h
    have hc' : c = ':' := eq_of_beq hc
    subst hc'
    exact ⟨a, b, d, e, rfl, ha, hb, hd, he⟩
  all_goals simp at h

theorem specTimeOk_false_of_format_false {s : String} (h : timeFormatMatches s = false) :
    specTimeOk s = false := by
  cases hsp : specTimeOk s
  · rfl
  · exfalso
    unfold specTimeOk at hsp
    unfold timeFormatMatches at h
    rcases hs : s.data with _ | ⟨a, _ | ⟨b, _ | ⟨c, _ | ⟨d, _ | ⟨e, _ | ⟨f, rest⟩⟩⟩⟩⟩⟩ <;>
      rw [hs] at hsp h
    case cons.cons.cons.cons.cons.nil =>
      simp only [Bool.and_eq_true] at hsp
      obtain ⟨⟨⟨⟨⟨⟨ha, hb⟩, hc⟩, hd⟩, he⟩, h23⟩, h59⟩ := hsp
      simp [ha, hb, hc, hd, he] at h
    all_goals simp at hsp

theorem validateValue_time (key : String) (v : JsValue) (rule : EnvRule)
    (hty : rule.type = "time") (habs : isAbsent v = false) :
    validateValue key v rule = timeBranch key v := by
  unfold validateValue
  rw [hty, habs]
  simp

/-- C6 counterexample: an absent value under a time rule (here the empty
string, which does not match `HH:MM`) produces no error at all, and a
non-string value whose string form does match the pattern (the one-element
array holding `"23:59"`) makes the rule throw a `TypeError` at
`value.split` instead of producing an error. -/
theorem c6_counterexample :
    validateValue "T" (.str "") { name := "T", type := "time" } = .ok [] ∧
    validateValue "T" (.arr [.str "23:59"]) { name := "T", type := "time" } =
      .error "TypeError: value.split is not a function" := by
  constructor
  · rfl
  · have hsz : jsSize (.arr [.str "23:59"]) = 3 := by
      simp [jsSize, jsSizeList]
    have hstr : jsToString (.arr [.str "23:59"]) = "23:59" := by
      unfold jsToString
      rw [hsz]
      rfl
    rw [validateValue_time "T" (.arr [.str "23:59"]) _ rfl rfl]
    unfold timeBranch
    rw [hstr]
    rfl

/-- C6 amended: for every non-absent value that does not hit the `split`
throw (a non-string whose string form passes the two-digits, colon,
two-digits test), the time rule produces no error exactly when the value is
a string matching `HH:MM` with hour in `[0,23]` and minute in `[0,59]`;
`"23:59"` validates with no errors, while `"24:00"` (range) and `"9:5"`
(format) fail with distinct messages; the excluded values throw a
`TypeError` instead of producing an error. -/
theorem c6_amended :
    (∀ (key : String) (rule : EnvRule) (v : JsValue), rule.type = "time" →
      isAbsent v = false → ¬(isStr v = false ∧ timeFormatMatches (jsToString v) = true) →
      ∀ errs, validateValue key v rule = .ok errs → (errs = [] ↔ valueTimeOk v = true)) ∧
    (∀ (key : String) (rule : EnvRule) (v : JsValue), rule.type = "time" →
      isAbsent v = false → isStr v = false → timeFormatMatches (jsToString v) = true →
      validateValue key v rule = .error "TypeError: value.split is not a function") ∧
    validateValue "T" (.str "23:59") { name := "T", type := "time" } = .ok [] ∧
    validateValue "T" (.str "24:00") { name := "T", type := "time" } =
      .ok [timeRangeMsg "T"] ∧
    validateValue "T" (.str "9:5") { name := "T", type := "time" } = .ok [timeFmtMsg "T"] ∧
    timeRangeMsg "T" ≠ timeFmtMsg "T" := by
  refine ⟨?_, ?_, rfl, rfl, rfl, by decide⟩
  · intro key rule v hty habs hnc errs heq
    rw [validateValue_time key v rule hty habs] at heq
    unfold timeBranch at heq
    cases v with
    | str s =>
      by_cases hfmt : timeFormatMatches s
      · obtain ⟨a, b, d, e, hs, ha, hb, hd, he⟩ := timeFormat_shape hfmt
        rw [jsToString_str, if_pos hfmt] at heq
        dsimp only at heq
        rw [hs, splitColon_time ha hb hd he] at heq
        simp only [List.map_cons, List.map_nil, strToNumber_two_digits ha hb,
          strToNumber_two_digits hd he] at heq
        have g0 : ([some ⟨((10 * digVal a + digVal b : Nat) : Int), 1⟩,
            some ⟨((10 * digVal d + digVal e : Nat) : Int), 1⟩] : List (Option JsNum)).getD 0 none
            = some ⟨((10 * digVal a + digVal b : Nat) : Int), 1⟩ := rfl
        have g1 : ([some ⟨((10 * digVal a + digVal b : Nat) : Int), 1⟩,
            some ⟨((10 * digVal d + digVal e : Nat) : Int), 1⟩] : List (Option JsNum)).getD 1 none
            = some ⟨((10 * digVal d + digVal e : Nat) : Int), 1⟩ := rfl
        simp only [g0, g1] at heq
        have h0a : optNumLt (some ⟨((10 * digVal a + digVal b : Nat) : Int), 1⟩) 0 = false := by
          simp only [optNumLt, decide_eq_false_iff_not]
          omega
        have h0d : optNumLt (some ⟨((10 * digVal d + digVal e : Nat) : Int), 1⟩) 0 = false := by
          simp only [optNumLt, decide_eq_false_iff_not]
          omega
        simp only [h0a, h0d] at heq
        have hvt : valueTimeOk (.str s) =
            (decide (10 * digVal a + digVal b ≤ 23) &&
              decide (10 * digVal d + digVal e ≤ 59)) := by
          simp [valueTimeOk, specTimeOk, hs, ha, hb, hd, he]
        by_cases h23 : 10 * digVal a + digVal b ≤ 23 <;>
          by_cases h59 : 10 * digVal d + digVal e ≤ 59
        · have hg23 : optNumGt (some ⟨((10 * digVal a + digVal b : Nat) : Int), 1⟩) 23
              = false := by
            simp only [optNumGt, decide_eq_false_iff_not]
            omega
          have hg59 : optNumGt (some ⟨((10 * digVal d + digVal e : Nat) : Int), 1⟩) 59
              = false := by
            simp only [optNumGt, decide_eq_false_iff_not]
            omega
          simp only [hg23, hg59] at heq
          simp at heq
          subst heq
          simp [hvt, h23, h59]
        · have hg59 : optNumGt (some ⟨((10 * digVal d + digVal e : Nat) : Int), 1⟩) 59
              = true := by
            simp only [optNumGt, decide_eq_true_eq]
            omega
          simp only [hg59] at heq
          simp at heq
          subst heq
          simp [hvt, h59]
        · have hg23 : optNumGt (some ⟨((10 * digVal a + digVal b : Nat) : Int), 1⟩) 23
              = true := by
            simp only [optNumGt, decide_eq_true_eq]
            omega
          simp only [hg23] at heq
          simp at heq
          subst heq
          simp [hvt, h23]
        · have hg23 : optNumGt (some ⟨((10 * digVal a + digVal b : Nat) : Int), 1⟩) 23
              = true := by
            simp only [optNumGt, decide_eq_true_eq]
            omega
          simp only [hg23] at heq
          simp at heq
          subst heq
          simp [hvt, h23]
      · rw [jsToString_str, if_neg hfmt] at heq
        simp at heq
        subst heq
        have hf : timeFormatMatches s = false := by simpa using hfmt
        have hsp := specTimeOk_false_of_format_false hf
        simp [valueTimeOk, hsp]
    | undefined => simp [isAbsent] at habs
    | null => simp [isAbsent] at habs
    | bool b =>
      have hb : timeFormatMatches (jsToString (.bool b)) = false := by
        cases hf : timeFormatMatches (jsToString (.bool b))
        · rfl
        · exact absurd ⟨rfl, hf⟩ hnc
      rw [if_neg (by simp [hb])] at heq
      simp at heq
      subst heq
      simp [valueTimeOk]
    | num n =>
      have hb : timeFormatMatches (jsToString (.num n)) = false := by
        cases hf : timeFormatMatches (jsToString (.num n))
        · rfl
        · exact absurd ⟨rfl, hf⟩ hnc
      rw [if_neg (by simp [hb])] at heq
      simp at heq
      subst heq
      simp [valueTimeOk]
    | arr es =>
      have hb : timeFormatMatches (jsToString (.arr es)) = false := by
        cases hf : timeFormatMatches (jsToString (.arr es))
        · rfl
        · exact absurd ⟨rfl, hf⟩ hnc
      rw [if_neg (by simp [hb])] at heq
      simp at heq
      subst heq
      simp [valueTimeOk]
    | obj fs =>
      have hb : timeFormatMatches (jsToString (.obj fs)) = false := by
        cases hf : timeFormatMatches (jsToString (.obj fs))
        · rfl
        · exact absurd ⟨rfl, hf⟩ hnc
      rw [if_neg (by simp [hb])] at heq
      simp at heq
      subst heq
      simp [valueTimeOk]
  · intro key rule v hty habs hstr hfmt
    rw [validateValue_time key v rule hty habs]
    unfold timeBranch
    rw [if_pos hfmt]
    cases v with
    | str s => simp [isStr] at hstr
    | undefined => rfl
    | null => rfl
    | bool b => rfl
    | num n => rfl
    | arr es => rfl
    | obj fs => rfl

/-- Witness for C6 amended: the in-range string `"10:30"` under a time rule
gives the no-error side of the equivalence, and the array value whose
string form matches the pattern hits the characterized throw. -/
theorem c6_witness :
    (([] : List String) = [] ↔ valueTimeOk (.str "10:30") = true) ∧
    validateValue "T" (.arr [.str "23:59"]) { name := "T", type := "time" } =
      .error "TypeError: value.split is not a function" := by
  have hsz : jsSize (.arr [.str "23:59"]) = 3 := by
    simp [jsSize, jsSizeList]
  have hstr : jsToString (.arr [.str "23:59"]) = "23:59" := by
    unfold jsToString
    rw [hsz]
    rfl
  constructor
  · exact c6_amended.1 "T" { name := "T", type := "time" } (.str "10:30") rfl rfl
      (by simp [isStr]) [] rfl
  · exact c6_amended.2.1 "T" { name := "T", type := "time" } (.arr [.str "23:59"]) rfl rfl rfl
      (by rw [hstr]; rfl)

end TopSecretEnv
